import Mathlib

/-!
Verification of the listing evaluation and deduplication engine of
`marketplace_monitor_v2.py` (repository `flipping_lead_gen`).

The Python source is shallowly embedded below.  Python floats are modelled
as rationals (`ℚ`): every arithmetic operation the engine performs on
prices (subtraction, division, comparison) is exact on the decimal values
appearing in the catalog, so no claim here depends on binary rounding.
Python strings are modelled as `String` / `List Char`; fallible operations
(`float(...)`, indexing that can raise) return `Option`.
-/

set_option maxRecDepth 16000

namespace MMon

/-! ## Character-level string utilities

These model the Python string primitives the scraper uses:
`title.split("$")[-1]`, `.split()[0]`, `float(...)`, `"x" in s`,
`s.lower()`, `s.split(" - ")[0]`. -/

/-- Whether `pat` occurs at the very front of `s` (`List`-level `startswith`). -/
def startsWithSeq : List Char → List Char → Bool
  | [], _ => true
  | _ :: _, [] => false
  | a :: as, b :: bs => a = b && startsWithSeq as bs

/-- Python's substring test `needle in hay`, on character lists. -/
def hasSubstr (needle : List Char) : List Char → Bool
  | [] => needle.isEmpty
  | c :: cs => startsWithSeq needle (c :: cs) || hasSubstr needle cs

/-- Python's `s.lower()` (the catalog and the observed titles are ASCII,
where Python's `lower` and `Char.toLower` agree). -/
def lowerChars (cs : List Char) : List Char := cs.map Char.toLower

/-- The suffix of `cs` after its last `'$'` (all of `cs` when there is
none).  This is exactly Python's `cs.split("$")[-1]`: splitting on a
separator yields `count+1` parts whose last is the text after the final
separator. -/
def afterLastDollar (cs : List Char) : List Char :=
  (cs.reverse.takeWhile (fun c => c ≠ '$')).reverse

/-- Python's `s.split()[0]`: the first maximal whitespace-free token.
`none` models the `IndexError` raised by `[0]` when `s.split()` is empty
(i.e. `s` is empty or all whitespace).  Whitespace is `Char.isWhitespace`
(space, tab, CR, LF) — the characters occurring in listing titles; Python
additionally treats `\x0b`, `\f` and Unicode spaces as separators. -/
def firstWsToken (cs : List Char) : Option (List Char) :=
  match cs.dropWhile Char.isWhitespace with
  | [] => none
  | c :: cs' => some ((c :: cs').takeWhile (fun x => ¬ x.isWhitespace))

/-- Numeric value of a digit string (most significant digit first). -/
def digitsVal (cs : List Char) : ℕ :=
  cs.foldl (fun n c => 10 * n + (c.toNat - 48)) 0

/-- Unsigned *numeric* fragment of Python's `float(...)` literal grammar:
decimal digits with at most one point (`"350"`, `"350."`, `".5"`).  The
non-finite literals (`inf`/`infinity`/`nan`, case-insensitive) are
handled by `pyLitVal` below.  Exponents and digit underscores remain
unmodelled: any such token parses in Python to a *finite* value that is
negative only under an explicit leading minus, so their omission narrows
hypothesis coverage without hiding a violation of any claim here.
`none` models `ValueError`. -/
def pyFloatCore (cs : List Char) : Option ℚ :=
  let ip := cs.takeWhile Char.isDigit
  match cs.dropWhile Char.isDigit with
  | [] => if ip.isEmpty then none else some (digitsVal ip)
  | c :: fp =>
    if c = '.' && fp.all Char.isDigit && !(ip.isEmpty && fp.isEmpty) then
      some ((digitsVal ip : ℚ) + (digitsVal fp : ℚ) / (10 : ℚ) ^ fp.length)
    else none

/-- Python's `float(...)` restricted to finite results: an optional sign
then `pyFloatCore`.  This is the fragment a rational-valued price can
carry; `pyFloatV` below is the full parser (including `±inf` and NaN)
and `pyFloat_num_iff` proves this function is exactly its finite part. -/
def pyFloat (cs : List Char) : Option ℚ :=
  match cs with
  | [] => pyFloatCore []
  | c :: rest =>
    if c = '-' then (pyFloatCore rest).map (fun q => -q)
    else if c = '+' then pyFloatCore rest
    else pyFloatCore (c :: rest)

/-- Value of a successful Python `float(...)` parse: a finite rational, a
signed infinity, or NaN (whose parsed sign is irrelevant to every
comparison the program makes). -/
inductive PyFloatVal where
  | num (q : ℚ)
  | inf (neg : Bool)
  | nan (neg : Bool)
deriving DecidableEq, Repr

/-- Effect of a leading `-` on a parsed value. -/
def PyFloatVal.negate : PyFloatVal → PyFloatVal
  | .num q => .num (-q)
  | .inf b => .inf (!b)
  | .nan b => .nan (!b)

/-- Unsigned Python float literal, full model: the numeric fragment
(`pyFloatCore`) or one of the case-insensitive non-finite literals
`inf` / `infinity` / `nan` accepted by Python's `float(...)`. -/
def pyLitVal (cs : List Char) : Option PyFloatVal :=
  match pyFloatCore cs with
  | some q => some (.num q)
  | none =>
    if lowerChars cs = "inf".data ∨ lowerChars cs = "infinity".data then
      some (.inf false)
    else if lowerChars cs = "nan".data then some (.nan false)
    else none

/-- Python's `float(...)` on a token, full model: an optional sign then
`pyLitVal`. -/
def pyFloatV (cs : List Char) : Option PyFloatVal :=
  match cs with
  | [] => pyLitVal []
  | c :: rest =>
    if c = '-' then (pyLitVal rest).map PyFloatVal.negate
    else if c = '+' then pyLitVal rest
    else pyLitVal (c :: rest)

/-- Python's `p <= m` for a parsed price against the finite `max_price`:
`-inf <= m` is true, `+inf <= m` is false, and every NaN comparison is
false. -/
def pyLe : PyFloatVal → ℚ → Bool
  | .num q, m => q ≤ m
  | .inf b, _ => b
  | .nan _, _ => false

/-- Python's `s.split(sep)[0]`: the text before the first occurrence of
`sep` (all of `s` when `sep` does not occur).  Used for
`title.split(" - ")[0]`. -/
def takeUntilSep (sep : List Char) : List Char → List Char
  | [] => []
  | c :: cs => if startsWithSeq sep (c :: cs) then [] else c :: takeUntilSep sep cs

/-! ## The scraper's price extraction (`CraigslistScraper.search`, lines 139-157)

```python
price_str = title.split("$")[-1].split()[0] if "$" in title else "0"
price = float(price_str)
```
wrapped in `try: ... except (ValueError, IndexError, AttributeError): continue`. -/

/-- The price the scraper computes from a raw feed title: `some p` when
`price = float(price_str)` succeeds with a finite value, `none` when the
`try` body raises (no token after the last `$`, or an unparsable token)
and the entry is skipped.  Note the `else "0"` branch: a title with no
`$` is given the price `0.0`, it is *not* skipped.  This is the
finite-price fragment; `extractPriceV` runs the same pipeline under full
float semantics (`extract_num_iff` relates the two), where `$-inf` also
parses and passes the `price <= max_price` filter (claim C7). -/
def extractPriceChars (t : List Char) : Option ℚ :=
  if '$' ∈ t then
    match firstWsToken (afterLastDollar t) with
    | none => none
    | some tok => pyFloat tok
  else some 0

/-- String-level wrapper of `extractPriceChars`. -/
def extractPrice (title : String) : Option ℚ := extractPriceChars title.data

/-- Line 143 under full Python float semantics: identical pipeline to
`extractPriceChars` with `pyFloatV` in place of `pyFloat`. -/
def extractPriceV (t : List Char) : Option PyFloatVal :=
  if '$' ∈ t then
    match firstWsToken (afterLastDollar t) with
    | none => none
    | some tok => pyFloatV tok
  else some (.num 0)

/-- Lines 143-146's admission decision under full float semantics: the
price the entry's listing is built with, or `none` when the entry is
skipped (parse failure, or `price <= max_price` false).  `scrapeEntry`
is the restriction of this pipeline to finitely-parsed prices; the one
admissible non-finite price is `-inf`, which Python's comparison lets
through the filter (`float("-inf") <= max_price` is true, see
`C7_counterexample`). -/
def scrapePriceV (maxp : ℚ) (t : List Char) : Option PyFloatVal :=
  match extractPriceV t with
  | none => none
  | some p => if pyLe p maxp then some p else none

/-! ## Data structures -/

/-- The `Listing` dataclass.  The `condition` field (always `None` in the
scraper) is omitted; it is never read. -/
structure Listing where
  id : String
  title : String
  price : ℚ
  url : String
  platform : String
  posted_time : String
  location : String
deriving DecidableEq, Repr

/-- The `Deal` dataclass.  `found_at` (a wall-clock timestamp never used
in a decision) is omitted. -/
structure Deal where
  listing : Listing
  target_item : String
  max_buy_price : ℚ
  profit_potential : ℚ
  margin_percentage : ℚ
deriving DecidableEq, Repr

/-- One raw RSS feed entry as the scraper reads it. -/
structure FeedEntry where
  id : String
  title : String
  link : String
  published : String
deriving DecidableEq, Repr

/-- One value of the `PRICING_TARGETS` dict. -/
structure Target where
  max_buy : ℚ
  resale_avg : ℚ
  margin : ℚ
deriving DecidableEq, Repr

/-- The hard-coded `PRICING_TARGETS` dict (lines 46-56), as an association
list in declaration order; its keys are pairwise distinct, so ordered
lookup agrees with Python dict lookup. -/
def PRICING_TARGETS : List (String × Target) :=
  [ ("dexcom_g6", ⟨35, 90, 6/10⟩)
  , ("dexcom_g7", ⟨45, 120, 6/10⟩)
  , ("omnipod_5", ⟨100, 200, 5/10⟩)
  , ("omnipod_dash", ⟨90, 180, 5/10⟩)
  , ("freestyle_libre", ⟨30, 80, 6/10⟩)
  , ("test_strips", ⟨20, 50, 6/10⟩)
  , ("iphone_15", ⟨300, 400, 25/100⟩)
  , ("iphone_14_pro", ⟨350, 500, 3/10⟩)
  , ("iphone_13", ⟨250, 350, 3/10⟩) ]

/-- `SEARCH_KEYWORDS["diabetic_supplies"]` (lines 60-64). -/
def diabetic_supplies : List String :=
  [ "Dexcom G6", "Dexcom G7", "Omnipod 5", "Omnipod DASH"
  , "Freestyle Libre", "Test Strips", "Glucose Monitor", "Insulin Pump"
  , "CGM", "Continuous Glucose Monitor" ]

/-- `SEARCH_KEYWORDS["phones"]` (lines 65-68). -/
def phones : List String :=
  [ "iPhone 15", "iPhone 14 Pro", "iPhone 13 Pro"
  , "Samsung S23", "Pixel 8", "OnePlus 12" ]

/-! ## The scraper's per-entry listing construction (lines 139-157) -/

/-- One iteration of the scraper's entry loop: extract a price, keep the
entry iff extraction succeeded and `price <= max_price`, building the
`Listing` exactly as lines 146-155 do (`title.split(" - ")[0]`,
`id = f"cl_{city}_{entry.id}"`; `city.title()` is modelled by
`String.capitalize`, identical on the one-word city names used).  The
price is the finite-fragment extraction; admission under full float
semantics, where a `$-inf` title is also kept, is `scrapePriceV`. -/
def scrapeEntry (city : String) (max_price : ℚ) (e : FeedEntry) : Option Listing :=
  match extractPriceChars e.title.data with
  | none => none
  | some p =>
    if p ≤ max_price then
      some { id := "cl_" ++ city ++ "_" ++ e.id
           , title := String.mk (takeUntilSep " - ".data e.title.data)
           , price := p
           , url := e.link
           , platform := "craigslist"
           , posted_time := e.published
           , location := city.capitalize }
    else none

/-! ## `MarketplaceMonitor` (lines 189-251, 322-358) -/

/-- Dict lookup in `PRICING_TARGETS` (or any targets dict). -/
def findTarget (targets : List (String × Target)) (key : String) : Option Target :=
  (targets.find? (fun p => p.1 == key)).map Prod.snd

/-- One row of the dict `check_price_match` returns (lines 204-210). -/
structure PriceMatch where
  item : String
  max_buy : ℚ
  resale_avg : ℚ
  profit : ℚ
  margin : ℚ
deriving DecidableEq, Repr

/-- `MarketplaceMonitor.check_price_match` (lines 197-211), parameterised
by the targets dict it reads (the source reads the module-level constant
`PRICING_TARGETS`).  Returns `none` when the key is absent or
`price > max_buy`; otherwise the dict of lines 204-210. -/
def check_price_match (targets : List (String × Target)) (price : ℚ)
    (item_key : String) : Option PriceMatch :=
  match findTarget targets item_key with
  | none => none
  | some t =>
    if price ≤ t.max_buy then
      some ⟨item_key, t.max_buy, t.resale_avg, t.resale_avg - price,
            (t.resale_avg - price) / t.resale_avg⟩
    else none

/-- The keyword test of line 217: `keyword.lower() in title_lower`. -/
def kwMatches (title kw : String) : Bool :=
  hasSubstr (lowerChars kw.data) (lowerChars title.data)

/-- `MarketplaceMonitor.match_keywords` (lines 213-219): the first keyword
in list order whose lowercase form is a substring of the lowercased
title, else `None`. -/
def match_keywords (title : String) (keywords : List String) : Option String :=
  keywords.find? (kwMatches title)

/-- `matched_keyword.lower().replace(" ", "_")` (lines 226 and 240). -/
def pyKey (kw : String) : String :=
  String.mk ((lowerChars kw.data).map (fun c => if c = ' ' then '_' else c))

/-- One keyword-category block of `evaluate_listing` (lines 224-235 and
238-249): match the title against one keyword list, look the matched
keyword's key up in the targets, and build a `Deal` on success. -/
def tryCategory (targets : List (String × Target)) (l : Listing)
    (kws : List String) : Option Deal :=
  match match_keywords l.title kws with
  | none => none
  | some kw =>
    match check_price_match targets l.price (pyKey kw) with
    | none => none
    | some pm => some ⟨l, kw, pm.max_buy, pm.profit, pm.margin⟩

/-- `MarketplaceMonitor.evaluate_listing` (lines 221-251): the diabetic
supplies block, falling through to the phones block when it does not
return. -/
def evaluate_listing (targets : List (String × Target)) (l : Listing) : Option Deal :=
  match tryCategory targets l diabetic_supplies with
  | some d => some d
  | none => tryCategory targets l phones

/-- The monitor's cross-cycle mutable state (`__init__`, lines 192-195):
`listings_seen` (a set of listing ids, modelled as a list read only
through membership) and `deals_found`. -/
structure MonitorState where
  listings_seen : List String
  deals_found : List Deal
deriving DecidableEq, Repr

/-- The body of `monitor_cycle`'s per-listing loop (lines 339-344): skip a
seen id; otherwise record the id and evaluate, appending any deal to the
cycle's `deals_this_cycle`.  The state is `(listings_seen, deals_this_cycle)`. -/
def step (targets : List (String × Target)) (s : List String × List Deal)
    (l : Listing) : List String × List Deal :=
  if l.id ∈ s.1 then s
  else
    match evaluate_listing targets l with
    | some d => (l.id :: s.1, s.2 ++ [d])
    | none => (l.id :: s.1, s.2)

/-- The whole per-cycle evaluation loop over the listings of all cities
and keywords, in arrival order, starting from the cross-cycle seen-set
and an empty `deals_this_cycle`. -/
def runListings (targets : List (String × Target)) (seen : List String)
    (ls : List Listing) : List String × List Deal :=
  ls.foldl (step targets) (seen, [])

/-- `MarketplaceMonitor.monitor_cycle` (lines 322-358) on the listings the
scrapers returned this cycle: evaluates every listing, then sends one
alert batch iff `deals_this_cycle` is nonempty (lines 351-354) and
extends `deals_found`.  The second component is the list of alert batches
dispatched this cycle (each batch is passed to `send_alert` as-is: a flat
list of deals in arrival order). -/
def monitor_cycle (targets : List (String × Target)) (s : MonitorState)
    (ls : List Listing) : MonitorState × List (List Deal) :=
  let r := runListings targets s.listings_seen ls
  (⟨r.1, s.deals_found ++ r.2⟩, if r.2.isEmpty then [] else [r.2])

/-! ## Spec-side definitions and concrete fixtures

`itemsGrouped` renders the spec's Alert-Batch grouping requirement (§4.6) for
comparison with the code's batch; the fixtures are concrete inputs used by
witnesses and counterexamples. -/

/-- Modelled from the spec (§4.6), for refinement comparison only: in a
batch whose deals are "grouped by catalog item preserving first-seen
order", the deals of one item are contiguous — between two occurrences of
an item only that same item occurs.  (Necessary condition of the spec's
grouping; the code's flat batch is compared against it.) -/
def itemsGrouped (xs : List String) : Prop :=
  ∀ i j k : Fin xs.length, i < j → j < k → xs.get i = xs.get k → xs.get i = xs.get j

instance (xs : List String) : Decidable (itemsGrouped xs) := by
  unfold itemsGrouped; infer_instance

/-- Fixture: a listing matching `"Dexcom G6"` at price 30 (a deal). -/
def dexcomListing : Listing :=
  ⟨"cl_newyork_a1", "Dexcom G6", 30, "u1", "craigslist", "t1", "Newyork"⟩

/-- Fixture: a listing matching `"iPhone 15"` at price 250 (a deal). -/
def iphoneListing : Listing :=
  ⟨"cl_newyork_b1", "iPhone 15", 250, "u2", "craigslist", "t2", "Newyork"⟩

/-- Fixture: a second `"Dexcom G6"` listing, distinct id, price 20 (a deal). -/
def dexcomListing2 : Listing :=
  ⟨"cl_newyork_c1", "Dexcom G6", 20, "u3", "craigslist", "t3", "Newyork"⟩

/-- Fixture: a listing matching no catalog keyword. -/
def couchListing : Listing :=
  ⟨"cl_newyork_d1", "old couch", 50, "u4", "craigslist", "t4", "Newyork"⟩

/-- Fixture: a feed entry whose title has no `$` and contains `Dexcom G6`. -/
def dexcomEntry : FeedEntry := ⟨"e1", "Dexcom G6 sensors", "u5", "t5"⟩

/-! ## Helper lemmas on the string model -/

theorem takeWhile_append_of_all {α : Type} {p : α → Bool} {xs ys : List α}
    (h : ∀ x ∈ xs, p x = true) :
    (xs ++ ys).takeWhile p = xs ++ ys.takeWhile p := by
  induction xs with
  | nil => simp
  | cons c cs ih =>
    have hc : p c = true := h c (by simp)
    simp only [List.cons_append, List.takeWhile_cons, hc, if_true]
    rw [ih (fun x hx => h x (by simp [hx]))]

theorem afterLastDollar_append (a r : List Char) (hr : '$' ∉ r) :
    afterLastDollar (a ++ '$' :: r) = r := by
  unfold afterLastDollar
  have h1 : (a ++ '$' :: r).reverse = r.reverse ++ '$' :: a.reverse := by
    simp
  rw [h1, takeWhile_append_of_all (fun x hx => by
    simp only [decide_eq_true_eq]
    exact fun hx' => hr (hx' ▸ List.mem_reverse.mp hx))]
  simp

theorem firstWsToken_of_token {n b : List Char} (hne : n ≠ [])
    (hnws : ∀ c ∈ n, c.isWhitespace = false)
    (hbd : b = [] ∨ ∃ c b', b = c :: b' ∧ c.isWhitespace = true) :
    firstWsToken (n ++ b) = some n := by
  obtain ⟨c, cs, rfl⟩ := List.exists_cons_of_ne_nil hne
  have hc : c.isWhitespace = false := hnws c (by simp)
  unfold firstWsToken
  rw [List.cons_append, List.dropWhile_cons]
  simp only [hc, Bool.false_eq_true, if_false]
  have htw : (c :: (cs ++ b)).takeWhile (fun x => ¬ x.isWhitespace) = c :: cs := by
    rw [show c :: (cs ++ b) = (c :: cs) ++ b from rfl]
    rw [takeWhile_append_of_all (fun x hx => by
      simp [hnws x hx])]
    rcases hbd with rfl | ⟨d, b', rfl, hd⟩
    · simp
    · simp [List.takeWhile_cons, hd]
  rw [htw]

theorem dollar_mem_middle (a r : List Char) : '$' ∈ a ++ '$' :: r := by simp

theorem extract_after_last (a r : List Char) (hr : '$' ∉ r) :
    extractPriceChars (a ++ '$' :: r) =
      match firstWsToken r with
      | none => none
      | some tok => pyFloat tok := by
  unfold extractPriceChars
  rw [if_pos (dollar_mem_middle a r), afterLastDollar_append a r hr]

theorem extract_no_dollar {t : List Char} (h : '$' ∉ t) :
    extractPriceChars t = some 0 := by
  unfold extractPriceChars
  rw [if_neg h]

theorem scrapeEntry_no_dollar (city : String) (mp : ℚ) (e : FeedEntry)
    (he : '$' ∉ e.title.data) (hmp : 0 ≤ mp) :
    ∃ l, scrapeEntry city mp e = some l ∧ l.price = 0
      ∧ l.title = String.mk (takeUntilSep " - ".data e.title.data)
      ∧ l.id = "cl_" ++ city ++ "_" ++ e.id := by
  refine ⟨⟨"cl_" ++ city ++ "_" ++ e.id,
           String.mk (takeUntilSep " - ".data e.title.data), 0,
           e.link, "craigslist", e.published, city.capitalize⟩, ?_, rfl, rfl, rfl⟩
  unfold scrapeEntry
  rw [extract_no_dollar he]
  simp only [if_pos hmp]

/-! ## Claim C1 — price extraction from a single `$<number>` token, and titles
with no `$` -/

/-- Claim C1 as stated is false on the code: a title with no `$` character
does not fail extraction and is not skipped; the `else "0"` branch of line
143 gives it the price `0.0` and line 146 admits it (`0 <= max_price`).
Here `"Dexcom G6 bundle"` extracts to `some 0` and the scraper builds a
listing with price `0` from it. -/
theorem C1_counterexample :
    extractPriceChars ("Dexcom G6 bundle").data = some 0
    ∧ (scrapeEntry "newyork" 600 ⟨"e1", "Dexcom G6 bundle", "u", "t"⟩).map
        (fun l => l.price) = some 0 := by
  constructor <;> decide

/-- Claim C1, amended: a title containing exactly one `$`, that `$`
followed directly by a whitespace-delimited token that parses as a number
`v`, extracts to exactly `v`; and a title containing no `$` extracts to
price `0` and yields a listing priced `0` (it is not skipped).  The title
with the token is `a ++ "$" ++ n ++ b` with no `$` elsewhere, `n` the
nonempty whitespace-free token and `b` the rest (empty or starting with
whitespace). -/
theorem C1_extraction (a n b t : List Char) (v : ℚ) (city : String) (mp : ℚ)
    (e : FeedEntry)
    (ha : '$' ∉ a) (hn : '$' ∉ n) (hb : '$' ∉ b)
    (hne : n ≠ [])
    (hnws : ∀ c ∈ n, c.isWhitespace = false)
    (hbd : b = [] ∨ ∃ c b', b = c :: b' ∧ c.isWhitespace = true)
    (hv : pyFloat n = some v)
    (ht : '$' ∉ t) (he : '$' ∉ e.title.data) (hmp : 0 ≤ mp) :
    extractPriceChars (a ++ '$' :: (n ++ b)) = some v
    ∧ extractPriceChars t = some 0
    ∧ ∃ l, scrapeEntry city mp e = some l ∧ l.price = 0 := by
  obtain ⟨l, h1, h2, -, -⟩ := scrapeEntry_no_dollar city mp e he hmp
  refine ⟨?_, extract_no_dollar ht, ⟨l, h1, h2⟩⟩
  have hnb : '$' ∉ n ++ b := by
    intro hmem
    rcases List.mem_append.mp hmem with h | h
    · exact hn h
    · exact hb h
  rw [extract_after_last a (n ++ b) hnb, firstWsToken_of_token hne hnws hbd]
  exact hv

/-- Witness for `C1_extraction` at the spec's own example
`"iPhone 14 Pro - $350 OBO"` (and `"Dexcom G6 bundle"` for the no-`$`
part). -/
theorem C1_extraction_witness :
    extractPriceChars ("iPhone 14 Pro - ".data ++ '$' :: ("350".data ++ " OBO".data))
        = some 350
    ∧ extractPriceChars ("Dexcom G6 bundle").data = some 0
    ∧ ∃ l, scrapeEntry "newyork" 600 ⟨"e1", "Dexcom G6 bundle", "u", "t"⟩ = some l
        ∧ l.price = 0 :=
  C1_extraction "iPhone 14 Pro - ".data "350".data " OBO".data
    ("Dexcom G6 bundle").data 350 "newyork" 600
    ⟨"e1", "Dexcom G6 bundle", "u", "t"⟩
    (by decide) (by decide) (by decide) (by decide) (by decide)
    (by right; exact ⟨' ', "OBO".data, rfl, by decide⟩)
    (by decide) (by decide) (by decide) (by decide)

/-! ## Claim C3 — price ranges `"$<low>-$<high>"` -/

/-- Claim C3 as stated is false on the code: for
`"Dexcom G6 3 pack $50-$60"` extraction returns the upper bound `60`
(`title.split("$")[-1]` takes the text after the *last* `$`), not the
claimed lower bound `50`. -/
theorem C3_counterexample :
    extractPriceChars ("Dexcom G6 3 pack $50-$60").data = some 60
    ∧ extractPriceChars ("Dexcom G6 3 pack $50-$60").data ≠ some 50 := by
  constructor <;> decide

/-- Claim C3, amended: for a title encoding a range
`... $<low>-$<high> ...`, extraction deterministically returns the token
after the last `$` — the upper bound `hi` — whenever that token is a
well-formed number; the lower bound is discarded with the rest of the
prefix. -/
theorem C3_range_upper (a lo hi b : List Char) (v : ℚ)
    (hhi : '$' ∉ hi) (hb : '$' ∉ b)
    (hne : hi ≠ [])
    (hnws : ∀ c ∈ hi, c.isWhitespace = false)
    (hbd : b = [] ∨ ∃ c b', b = c :: b' ∧ c.isWhitespace = true)
    (hv : pyFloat hi = some v) :
    extractPriceChars (a ++ '$' :: (lo ++ '-' :: '$' :: (hi ++ b))) = some v := by
  have hre : a ++ '$' :: (lo ++ '-' :: '$' :: (hi ++ b))
      = (a ++ '$' :: (lo ++ ['-'])) ++ '$' :: (hi ++ b) := by
    simp
  have hnb : '$' ∉ hi ++ b := by
    intro hmem
    rcases List.mem_append.mp hmem with h | h
    · exact hhi h
    · exact hb h
  rw [hre, extract_after_last _ (hi ++ b) hnb,
    firstWsToken_of_token hne hnws hbd]
  exact hv

/-- Witness for `C3_range_upper` at the spec's example
`"Dexcom G6 3 pack $50-$60"`: the extracted price is `60`. -/
theorem C3_range_upper_witness :
    extractPriceChars ("Dexcom G6 3 pack ".data
        ++ '$' :: ("50".data ++ '-' :: '$' :: ("60".data ++ [])))
      = some 60 :=
  C3_range_upper "Dexcom G6 3 pack ".data "50".data "60".data [] 60
    (by decide) (by decide) (by decide) (by decide)
    (by left; rfl) (by decide)

/-! ## Claim C7 — bounds on successfully parsed prices -/

theorem pyFloatCore_comma {cs : List Char} (h : ',' ∈ cs) :
    pyFloatCore cs = none := by
  rcases hdw : cs.dropWhile Char.isDigit with _ | ⟨c, fp⟩
  all_goals have hsplit := List.takeWhile_append_dropWhile (p := Char.isDigit) (l := cs)
  · exfalso
    rw [hdw, List.append_nil] at hsplit
    have hdig : (',' : Char).isDigit = true :=
      List.mem_takeWhile_imp (hsplit ▸ h)
    simp at hdig
  · simp only [pyFloatCore, hdw]
    split_ifs with hcond
    · exfalso
      rw [hdw] at hsplit
      rw [← hsplit] at h
      have h1 := (Bool.and_eq_true _ _).mp hcond
      have h2 := (Bool.and_eq_true _ _).mp h1.1
      have hcdot : c = '.' := of_decide_eq_true h2.1
      have hall : fp.all Char.isDigit = true := h2.2
      rcases List.mem_append.mp h with hin | hin
      · have := List.mem_takeWhile_imp hin
        simp at this
      · rcases List.mem_cons.mp hin with hceq | hin
        · rw [hcdot] at hceq; exact absurd hceq (by decide)
        · have := List.all_eq_true.mp hall ',' hin
          simp at this
    · rfl

theorem pyFloat_nil : pyFloat [] = pyFloatCore [] := rfl

theorem pyFloat_cons (c : Char) (rest : List Char) :
    pyFloat (c :: rest) =
      if c = '-' then (pyFloatCore rest).map (fun q => -q)
      else if c = '+' then pyFloatCore rest
      else pyFloatCore (c :: rest) := rfl

theorem pyLitVal_of_core_some {cs : List Char} {q : ℚ}
    (h : pyFloatCore cs = some q) : pyLitVal cs = some (.num q) := by
  unfold pyLitVal
  rw [h]

theorem pyLitVal_of_core_none {cs : List Char} (h : pyFloatCore cs = none) :
    pyLitVal cs =
      if lowerChars cs = "inf".data ∨ lowerChars cs = "infinity".data then
        some (.inf false)
      else if lowerChars cs = "nan".data then some (.nan false)
      else none := by
  unfold pyLitVal
  rw [h]

theorem pyLitVal_num_iff (cs : List Char) (q : ℚ) :
    pyLitVal cs = some (.num q) ↔ pyFloatCore cs = some q := by
  rcases h : pyFloatCore cs with _ | q'
  · rw [pyLitVal_of_core_none h]
    split_ifs <;> simp
  · rw [pyLitVal_of_core_some h]
    simp

theorem pyLitVal_comma {cs : List Char} (h : ',' ∈ cs) : pyLitVal cs = none := by
  rw [pyLitVal_of_core_none (pyFloatCore_comma h)]
  have hlc : ',' ∈ lowerChars cs := List.mem_map.mpr ⟨',', h, by decide⟩
  split_ifs with h1 h2
  · exfalso
    rcases h1 with h1 | h1 <;> rw [h1] at hlc <;> exact absurd hlc (by decide)
  · exfalso
    rw [h2] at hlc
    exact absurd hlc (by decide)
  · rfl

theorem pyFloatV_nil : pyFloatV [] = pyLitVal [] := rfl

theorem pyFloatV_cons (c : Char) (rest : List Char) :
    pyFloatV (c :: rest) =
      if c = '-' then (pyLitVal rest).map PyFloatVal.negate
      else if c = '+' then pyLitVal rest
      else pyLitVal (c :: rest) := rfl

theorem pyFloatV_comma {cs : List Char} (h : ',' ∈ cs) : pyFloatV cs = none := by
  cases cs with
  | nil => simp at h
  | cons c rest =>
    rw [pyFloatV_cons]
    split_ifs with h1 h2
    · have : ',' ∈ rest := by
        rcases List.mem_cons.mp h with hc | hc
        · rw [h1] at hc; exact absurd hc (by decide)
        · exact hc
      rw [pyLitVal_comma this]; rfl
    · have : ',' ∈ rest := by
        rcases List.mem_cons.mp h with hc | hc
        · rw [h2] at hc; exact absurd hc (by decide)
        · exact hc
      exact pyLitVal_comma this
    · exact pyLitVal_comma h

theorem negate_eq_num_iff (p : PyFloatVal) (v : ℚ) :
    p.negate = .num v ↔ p = .num (-v) := by
  cases p with
  | num q => simp [PyFloatVal.negate, neg_eq_iff_eq_neg]
  | inf b => simp [PyFloatVal.negate]
  | nan b => simp [PyFloatVal.negate]

/-- The finite-fragment parser is exactly the `.num` part of the full
parser. -/
theorem pyFloat_num_iff (cs : List Char) (v : ℚ) :
    pyFloat cs = some v ↔ pyFloatV cs = some (.num v) := by
  cases cs with
  | nil => rw [pyFloat_nil, pyFloatV_nil, pyLitVal_num_iff]
  | cons c rest =>
    rw [pyFloat_cons, pyFloatV_cons]
    split_ifs with h1 h2
    · rw [Option.map_eq_some', Option.map_eq_some']
      constructor
      · rintro ⟨q, hq, rfl⟩
        exact ⟨.num q, (pyLitVal_num_iff rest q).mpr hq, rfl⟩
      · rintro ⟨p, hp, hneg⟩
        obtain rfl : p = .num (-v) := (negate_eq_num_iff p v).mp hneg
        exact ⟨-v, (pyLitVal_num_iff rest (-v)).mp hp, neg_neg v⟩
    · rw [pyLitVal_num_iff]
    · rw [pyLitVal_num_iff]

theorem pyFloatCore_nonneg {cs : List Char} {v : ℚ}
    (h : pyFloatCore cs = some v) : 0 ≤ v := by
  rcases hdw : cs.dropWhile Char.isDigit with _ | ⟨c, fp⟩ <;>
    simp only [pyFloatCore, hdw] at h
  · split_ifs at h
    obtain rfl : ((digitsVal (cs.takeWhile Char.isDigit) : ℕ) : ℚ) = v :=
      Option.some.inj h
    positivity
  · split_ifs at h
    obtain rfl : ((digitsVal (cs.takeWhile Char.isDigit) : ℕ) : ℚ)
        + (digitsVal fp : ℚ) / (10 : ℚ) ^ fp.length = v := Option.some.inj h
    positivity

theorem pyFloat_nonneg {cs : List Char} {v : ℚ} (hm : '-' ∉ cs)
    (h : pyFloat cs = some v) : 0 ≤ v := by
  cases cs with
  | nil => exact pyFloatCore_nonneg (pyFloat_nil ▸ h)
  | cons c rest =>
    rw [pyFloat_cons] at h
    split_ifs at h with h1 h2
    · exact absurd (List.mem_cons.mpr (Or.inl h1.symm)) hm
    · exact pyFloatCore_nonneg h
    · exact pyFloatCore_nonneg h

theorem extractPriceChars_eq_bind (t : List Char) :
    extractPriceChars t =
      if '$' ∈ t then (firstWsToken (afterLastDollar t)).bind pyFloat
      else some 0 := by
  unfold extractPriceChars
  split_ifs with h
  · rcases hf : firstWsToken (afterLastDollar t) with _ | tok <;> rfl
  · rfl

theorem extractPriceV_eq_bind (t : List Char) :
    extractPriceV t =
      if '$' ∈ t then (firstWsToken (afterLastDollar t)).bind pyFloatV
      else some (.num 0) := by
  unfold extractPriceV
  split_ifs with h
  · rcases hf : firstWsToken (afterLastDollar t) with _ | tok <;> rfl
  · rfl

/-- The ℚ-level extraction is exactly the finite (`.num`) part of the
full-float extraction: no title extracts to a finite price in one model
and anything else in the other. -/
theorem extract_num_iff (t : List Char) (v : ℚ) :
    extractPriceChars t = some v ↔ extractPriceV t = some (.num v) := by
  rw [extractPriceChars_eq_bind, extractPriceV_eq_bind]
  split_ifs with h
  · rcases hf : firstWsToken (afterLastDollar t) with _ | tok
    · simp
    · exact pyFloat_num_iff tok v
  · simp

/-- Claim C7 as stated is false on the code, in two independent ways:
`float("-50")` succeeds and the negative price propagates into the
`Listing` (`-50 <= max_price` holds); and `float("-inf")` succeeds with
`-inf <= max_price` *true*, so an entry titled `"widget $-inf"` is kept
with a non-finite price.  Thousands separators are meanwhile never
stripped: `"$1,200"` fails to parse and the entry is skipped. -/
theorem C7_counterexample :
    scrapePriceV 600 ("widget $-inf").data = some (.inf true)
    ∧ scrapePriceV 600 ("widget $-50").data = some (.num (-50))
    ∧ (-50 : ℚ) < 0
    ∧ (scrapeEntry "newyork" 600 ⟨"e2", "widget $-50", "u", "t"⟩).map
        (fun l => l.price) = some (-50)
    ∧ scrapePriceV 600 ("rare $1,200 item").data = none := by
  refine ⟨by decide, by with_unfolding_all decide, by decide, by decide,
          by decide⟩

/-- Claim C7, amended: a token containing a thousands separator never
parses — the separator is *not* stripped, the entry is skipped (e.g.
`"$1,200"`); a price that parses *numerically* is an exact finite
rational, nonnegative whenever its token carries no minus sign, and the
ℚ-level extraction is exactly this numeric fragment of the full-float
extraction; but a successfully extracted price is in general neither
nonnegative (`"$-50"`) nor finite (`"$-inf"`), both of which the scraper
accepts and propagates. -/
theorem C7_price_bounds :
    (∀ tok : List Char, ',' ∈ tok → pyFloatV tok = none)
    ∧ (∀ (tok : List Char) (v : ℚ),
        '-' ∉ tok → pyFloatV tok = some (.num v) → 0 ≤ v)
    ∧ (∀ (t : List Char) (v : ℚ),
        extractPriceChars t = some v ↔ extractPriceV t = some (.num v))
    ∧ scrapePriceV 600 ("rare $1,200 item").data = none := by
  exact ⟨fun tok h => pyFloatV_comma h,
         fun tok v hm h => pyFloat_nonneg hm ((pyFloat_num_iff tok v).mpr h),
         fun t v => extract_num_iff t v,
         by decide⟩

/-! ## Claim C2 — the price-match policy -/

theorem check_price_match_of_none {targets : List (String × Target)}
    {key : String} (price : ℚ) (h : findTarget targets key = none) :
    check_price_match targets price key = none := by
  unfold check_price_match
  rw [h]

theorem check_price_match_of_some {targets : List (String × Target)}
    {key : String} {t : Target} (price : ℚ) (h : findTarget targets key = some t) :
    check_price_match targets price key =
      if price ≤ t.max_buy then
        some ⟨key, t.max_buy, t.resale_avg, t.resale_avg - price,
              (t.resale_avg - price) / t.resale_avg⟩
      else none := by
  unfold check_price_match
  rw [h]

/-- Claim C2 as stated is false on the code: there is no margin-window
policy.  `check_price_match` accepts `price = 1` for `dexcom_g6` although
the resulting margin `89/90` far exceeds the entry's configured `margin`
parameter `0.60`; a listing priced low enough to push the margin above any
window is still accepted. -/
theorem C2_counterexample :
    check_price_match PRICING_TARGETS 1 "dexcom_g6"
      = some ⟨"dexcom_g6", 35, 90, 89, 89/90⟩
    ∧ (6/10 : ℚ) < 89/90 := by
  refine ⟨by with_unfolding_all decide, by with_unfolding_all decide⟩

/-- Claim C2, amended: the evaluator implements only the fixed-max-buy
rule — it accepts iff the item key is a catalog key and
`price ≤ max_buy`, boundary inclusive (`35` accepted, `35.01` rejected
for `dexcom_g6`); the returned dict carries
`profit = resale_avg - price` and `margin = profit / resale_avg`, but no
margin window is checked and the catalog's `margin` parameter is never
consulted. -/
theorem C2_fixed_max_buy :
    (∀ (price : ℚ) (key : String),
      (check_price_match PRICING_TARGETS price key).isSome = true ↔
        ∃ t, findTarget PRICING_TARGETS key = some t ∧ price ≤ t.max_buy)
    ∧ (∀ (price : ℚ) (key : String) (pm : PriceMatch),
        check_price_match PRICING_TARGETS price key = some pm →
          pm.profit = pm.resale_avg - price
          ∧ pm.margin = (pm.resale_avg - price) / pm.resale_avg)
    ∧ (check_price_match PRICING_TARGETS 35 "dexcom_g6").isSome = true
    ∧ (check_price_match PRICING_TARGETS (35 + 1/100) "dexcom_g6").isSome = false := by
  refine ⟨?_, ?_, by with_unfolding_all decide, by with_unfolding_all decide⟩
  · intro price key
    rcases hft : findTarget PRICING_TARGETS key with _ | t
    · rw [check_price_match_of_none price hft]
      simp [hft]
    · rw [check_price_match_of_some price hft]
      split_ifs with hle <;> simp [hft, hle]
  · intro price key pm h
    rcases hft : findTarget PRICING_TARGETS key with _ | t
    · rw [check_price_match_of_none price hft] at h
      exact absurd h (by simp)
    · rw [check_price_match_of_some price hft] at h
      split_ifs at h
      obtain rfl := Option.some.inj h
      exact ⟨rfl, rfl⟩

/-! ## Claims C4 and C5 — the deduplication store -/

theorem step_id_mem (targets : List (String × Target))
    (s : List String × List Deal) (l : Listing) : l.id ∈ (step targets s l).1 := by
  unfold step
  split_ifs with h
  · exact h
  · rcases evaluate_listing targets l <;> simp

theorem step_seen_mono (targets : List (String × Target))
    (s : List String × List Deal) (l : Listing) : s.1 ⊆ (step targets s l).1 := by
  unfold step
  split_ifs with h
  · exact fun x hx => hx
  · rcases evaluate_listing targets l <;> exact fun x hx => by simp [hx]

theorem step_of_seen (targets : List (String × Target))
    (s : List String × List Deal) (l : Listing) (h : l.id ∈ s.1) :
    step targets s l = s := by
  unfold step
  rw [if_pos h]

theorem foldl_seen_mono (targets : List (String × Target)) (ls : List Listing) :
    ∀ s : List String × List Deal, s.1 ⊆ (List.foldl (step targets) s ls).1 := by
  induction ls with
  | nil => exact fun s => fun x hx => hx
  | cons l ls ih =>
    intro s
    exact fun x hx => ih (step targets s l) (step_seen_mono targets s l hx)

theorem foldl_ids_mem (targets : List (String × Target)) (ls : List Listing) :
    ∀ s : List String × List Deal, ∀ l ∈ ls,
      l.id ∈ (List.foldl (step targets) s ls).1 := by
  induction ls with
  | nil => intro s l hl; simp at hl
  | cons a as ih =>
    intro s l hl
    rcases List.mem_cons.mp hl with rfl | hl
    · exact foldl_seen_mono targets as (step targets s l) (step_id_mem targets s l)
    · exact ih (step targets s a) l hl

/-- Claim C4: processing a listing the second time (with any listings in
between, and any listing `l'` carrying the same dedup key `id`) changes
nothing and emits no deal — `listing.id not in self.listings_seen` fails —
while the first processing emits at most one deal. -/
theorem C4_dedup (targets : List (String × Target)) (seen : List String)
    (deals : List Deal) (l : Listing) (ls : List Listing) (l' : Listing)
    (hid : l'.id = l.id) :
    step targets (List.foldl (step targets) (step targets (seen, deals) l) ls) l'
      = List.foldl (step targets) (step targets (seen, deals) l) ls
    ∧ ((step targets (seen, deals) l).2 = deals
        ∨ ∃ d, (step targets (seen, deals) l).2 = deals ++ [d]) := by
  constructor
  · apply step_of_seen
    rw [hid]
    exact foldl_seen_mono targets ls _ (step_id_mem targets (seen, deals) l)
  · unfold step
    split_ifs with h
    · exact Or.inl rfl
    · rcases evaluate_listing targets l with _ | d
      · exact Or.inl rfl
      · exact Or.inr ⟨d, rfl⟩

/-- Witness for `C4_dedup`: resubmitting the deal-producing
`dexcomListing` immediately is a no-op, and its first submission appended
one deal. -/
theorem C4_dedup_witness :
    step PRICING_TARGETS
        (List.foldl (step PRICING_TARGETS)
          (step PRICING_TARGETS ([], []) dexcomListing) []) dexcomListing
      = List.foldl (step PRICING_TARGETS)
          (step PRICING_TARGETS ([], []) dexcomListing) []
    ∧ ((step PRICING_TARGETS ([], []) dexcomListing).2 = []
        ∨ ∃ d, (step PRICING_TARGETS ([], []) dexcomListing).2 = [] ++ [d]) :=
  C4_dedup PRICING_TARGETS [] [] dexcomListing [] dexcomListing rfl

/-- Claim C5 as stated is false on the code: `monitor_cycle` adds
`listing.id` to `listings_seen` *before* evaluating (lines 340-342), so a
listing that produces no deal — here one matching no catalog keyword — is
recorded all the same. -/
theorem C5_counterexample :
    evaluate_listing PRICING_TARGETS couchListing = none
    ∧ step PRICING_TARGETS ([], []) couchListing = (["cl_newyork_d1"], []) := by
  refine ⟨by decide, by decide⟩

/-- Claim C5, amended: the dedup store records every *processed* listing
(deal or not), not only emitted opportunities, and it only grows: ids
already present stay present through any run, and every processed
listing's id is present afterwards. -/
theorem C5_store_monotone (targets : List (String × Target))
    (seen : List String) (ls : List Listing) :
    seen ⊆ (runListings targets seen ls).1
    ∧ ∀ l ∈ ls, l.id ∈ (runListings targets seen ls).1 := by
  exact ⟨foldl_seen_mono targets ls (seen, []),
         foldl_ids_mem targets ls (seen, [])⟩

/-- Witness for `C5_store_monotone` on a concrete store and cycle: a
previously seen id survives, and the no-deal `couchListing` is recorded. -/
theorem C5_store_monotone_witness :
    "old_id" ∈ (runListings PRICING_TARGETS ["old_id"] [couchListing]).1
    ∧ couchListing.id ∈ (runListings PRICING_TARGETS ["old_id"] [couchListing]).1 :=
  ⟨(C5_store_monotone PRICING_TARGETS ["old_id"] [couchListing]).1 (by decide),
   (C5_store_monotone PRICING_TARGETS ["old_id"] [couchListing]).2 couchListing
     (by decide)⟩

/-! ## Claim C6 — the catalog matcher -/

/-- Claim C6: `match_keywords` is case-insensitive substring matching in
declaration order — it returns `some k` exactly when `k` is the *first*
keyword of the list whose lowercased form occurs in the lowercased title,
`none` exactly when no keyword matches, and it returns at most one match.
Determinism and absence of side effects hold by construction: the
embedding is a pure function of `(title, keywords)`, faithful to the
source loop, which only reads its arguments. -/
theorem C6_matcher_characterization (title : String) (kws : List String) :
    (∀ k, match_keywords title kws = some k ↔
      ∃ l1 l2, kws = l1 ++ k :: l2 ∧ kwMatches title k = true
        ∧ ∀ k' ∈ l1, kwMatches title k' = false)
    ∧ (match_keywords title kws = none ↔ ∀ k ∈ kws, kwMatches title k = false)
    ∧ (∀ k k', match_keywords title kws = some k →
        match_keywords title kws = some k' → k = k') := by
  refine ⟨?_, ?_, ?_⟩
  · intro k
    rw [match_keywords, List.find?_eq_some]
    constructor
    · rintro ⟨hk, l1, l2, heq, hall⟩
      exact ⟨l1, l2, heq, hk, fun k' hk' => by simpa using hall k' hk'⟩
    · rintro ⟨l1, l2, heq, hk, hall⟩
      exact ⟨hk, l1, l2, heq, fun k' hk' => by simp [hall k' hk']⟩
  · rw [match_keywords, List.find?_eq_none]
    constructor
    · intro h k hk
      simpa using h k hk
    · intro h k hk
      simp [h k hk]
  · intro k k' h h'
    rw [h] at h'
    exact Option.some.inj h'

/-! ## Claim C8 — catalog validation at startup -/

/-- Claim C8 as stated is false on the code: no load-time validation
exists anywhere in the program — the catalog is a module-level literal and
`main` starts cycling without inspecting it.  Handed a catalog entry with
non-positive resale value, the evaluator does not fail fatally: it runs
and even *accepts* a listing against the invalid entry. -/
theorem C8_counterexample :
    (-5 : ℚ) ≤ 0
    ∧ check_price_match [("bad_item", ⟨35, -5, 6/10⟩)] 10 "bad_item"
        = some ⟨"bad_item", 35, -5, -15, 3⟩ := by
  refine ⟨by decide, by with_unfolding_all decide⟩

/-- Claim C8, amended: the code never validates the catalog, but every
entry of the hard-coded `PRICING_TARGETS` happens to have a positive
resale value (and a positive max-buy), so the evaluator in fact never
runs against a non-positive resale value in this program. -/
theorem C8_catalog_validity (p : String × Target) (hp : p ∈ PRICING_TARGETS) :
    0 < p.2.resale_avg ∧ 0 < p.2.max_buy := by
  simp only [PRICING_TARGETS, List.mem_cons, List.not_mem_nil, or_false] at hp
  rcases hp with rfl | rfl | rfl | rfl | rfl | rfl | rfl | rfl | rfl <;>
    exact ⟨by norm_num, by norm_num⟩

/-- Witness for `C8_catalog_validity` at the first catalog entry. -/
theorem C8_catalog_validity_witness :
    0 < (("dexcom_g6", (⟨35, 90, 6/10⟩ : Target)).2.resale_avg)
    ∧ 0 < (("dexcom_g6", (⟨35, 90, 6/10⟩ : Target)).2.max_buy) :=
  C8_catalog_validity ("dexcom_g6", ⟨35, 90, 6/10⟩) (by simp [PRICING_TARGETS])

/-! ## Claim C9 — per-cycle aggregation and the alert batch -/

theorem step_acc (targets : List (String × Target)) (seen : List String)
    (ds : List Deal) (l : Listing) :
    step targets (seen, ds) l
      = ((step targets (seen, []) l).1, ds ++ (step targets (seen, []) l).2) := by
  unfold step
  split_ifs with h
  · simp
  · rcases evaluate_listing targets l <;> simp

theorem foldl_step_acc (targets : List (String × Target)) (ls : List Listing) :
    ∀ (seen : List String) (ds : List Deal),
      List.foldl (step targets) (seen, ds) ls
        = ((runListings targets seen ls).1, ds ++ (runListings targets seen ls).2) := by
  induction ls with
  | nil => intro seen ds; simp [runListings]
  | cons l ls ih =>
    intro seen ds
    have h1 : List.foldl (step targets) (seen, ds) (l :: ls)
        = List.foldl (step targets) (step targets (seen, ds) l) ls := rfl
    have h2 : runListings targets seen (l :: ls)
        = List.foldl (step targets) (step targets (seen, []) l) ls := rfl
    rw [h1, h2, step_acc targets seen ds l]
    rcases hs : step targets (seen, []) l with ⟨seen1, ds1⟩
    rw [ih seen1 (ds ++ ds1), ih seen1 ds1]
    simp

/-- Claim C9, amended: all listings of a cycle are evaluated first, then
at most one alert is dispatched, whose single batch is exactly the
cycle's deals concatenated across sources in arrival order and appended
to `deals_found`; the batch is a *flat* list — `send_alert` receives the
deals as collected, with no grouping by catalog item. -/
theorem C9_single_batch (targets : List (String × Target)) (s : MonitorState)
    (xs ys : List Listing) :
    (monitor_cycle targets s (xs ++ ys)).2.length ≤ 1
    ∧ (monitor_cycle targets s (xs ++ ys)).2.flatten
        = (runListings targets s.listings_seen (xs ++ ys)).2
    ∧ (runListings targets s.listings_seen (xs ++ ys)).2
        = (runListings targets s.listings_seen xs).2
          ++ (runListings targets (runListings targets s.listings_seen xs).1 ys).2
    ∧ (monitor_cycle targets s (xs ++ ys)).1.deals_found
        = s.deals_found ++ (runListings targets s.listings_seen (xs ++ ys)).2 := by
  have hmc : (monitor_cycle targets s (xs ++ ys)).2
      = if (runListings targets s.listings_seen (xs ++ ys)).2.isEmpty then []
        else [(runListings targets s.listings_seen (xs ++ ys)).2] := rfl
  refine ⟨?_, ?_, ?_, rfl⟩
  · rw [hmc]
    split_ifs <;> simp
  · rw [hmc]
    split_ifs with h
    · simp [List.isEmpty_iff.mp h]
    · simp
  · unfold runListings
    rw [List.foldl_append]
    rcases hx : List.foldl (step targets) (s.listings_seen, []) xs with ⟨seen1, ds1⟩
    rw [foldl_step_acc targets ys seen1 ds1]
    simp [runListings]

/-- Claim C9 as stated is false on the code: for deals arriving in item
order `[Dexcom G6, iPhone 15, Dexcom G6]`, the dispatched batch is the
flat arrival-order list — the two Dexcom deals are not grouped together
(an element of a different item sits between them), so the batch does not
group deals by catalog item. -/
theorem C9_counterexample :
    (monitor_cycle PRICING_TARGETS ⟨[], []⟩
        [dexcomListing, iphoneListing, dexcomListing2]).2.map
        (fun b => b.map (fun d => d.target_item))
      = [["Dexcom G6", "iPhone 15", "Dexcom G6"]]
    ∧ ¬ itemsGrouped ["Dexcom G6", "iPhone 15", "Dexcom G6"] := by
  refine ⟨by with_unfolding_all decide, by decide⟩

/-! ## Claim C10 — no-`$` titles matching a pricing-target keyword -/

theorem tryCategory_of_match_none {targets : List (String × Target)}
    {l : Listing} {kws : List String}
    (h : match_keywords l.title kws = none) : tryCategory targets l kws = none := by
  unfold tryCategory
  rw [h]

theorem tryCategory_of_match_some {targets : List (String × Target)}
    {l : Listing} {kws : List String} {kw : String}
    (h : match_keywords l.title kws = some kw) :
    tryCategory targets l kws =
      match check_price_match targets l.price (pyKey kw) with
      | none => none
      | some pm => some ⟨l, kw, pm.max_buy, pm.profit, pm.margin⟩ := by
  unfold tryCategory
  rw [h]

theorem tryCategory_some_of {targets : List (String × Target)}
    {l : Listing} {kws : List String} {kw : String} {pm : PriceMatch}
    (hmk : match_keywords l.title kws = some kw)
    (hcp : check_price_match targets l.price (pyKey kw) = some pm) :
    tryCategory targets l kws = some ⟨l, kw, pm.max_buy, pm.profit, pm.margin⟩ := by
  rw [tryCategory_of_match_some hmk, hcp]

theorem evaluate_listing_of_try_some {targets : List (String × Target)}
    {l : Listing} {d : Deal}
    (h : tryCategory targets l diabetic_supplies = some d) :
    evaluate_listing targets l = some d := by
  unfold evaluate_listing
  rw [h]

theorem evaluate_listing_of_try_none {targets : List (String × Target)}
    {l : Listing}
    (h : tryCategory targets l diabetic_supplies = none) :
    evaluate_listing targets l = tryCategory targets l phones := by
  unfold evaluate_listing
  rw [h]

theorem findTarget_resale_ne_zero {key : String} {t : Target}
    (h : findTarget PRICING_TARGETS key = some t) : t.resale_avg ≠ 0 := by
  unfold findTarget at h
  rcases hf : PRICING_TARGETS.find? (fun p => p.1 == key) with _ | p
  · rw [hf] at h
    simp at h
  · rw [hf] at h
    have hp : p ∈ PRICING_TARGETS := List.mem_of_find?_eq_some hf
    have ht : p.2 = t := by simpa using h
    subst ht
    simp only [PRICING_TARGETS, List.mem_cons, List.not_mem_nil, or_false] at hp
    rcases hp with rfl | rfl | rfl | rfl | rfl | rfl | rfl | rfl | rfl <;> norm_num

/-- Any deal the evaluator builds from a zero-priced listing has margin
exactly `1` and profit equal to its matched item's full resale value. -/
theorem tryCategory_price0 {l : Listing} {kws : List String} {d : Deal}
    (hp : l.price = 0)
    (h : tryCategory PRICING_TARGETS l kws = some d) :
    d.margin_percentage = 1
    ∧ ∃ t, findTarget PRICING_TARGETS (pyKey d.target_item) = some t
        ∧ d.profit_potential = t.resale_avg := by
  rcases hmk : match_keywords l.title kws with _ | kw
  · rw [tryCategory_of_match_none hmk] at h
    exact absurd h (by simp)
  · rw [tryCategory_of_match_some hmk] at h
    rcases hft : findTarget PRICING_TARGETS (pyKey kw) with _ | t
    · rw [check_price_match_of_none l.price hft] at h
      exact absurd (show (none : Option Deal) = some d from h) (by simp)
    · rw [check_price_match_of_some l.price hft] at h
      by_cases hle : l.price ≤ t.max_buy
      · rw [if_pos hle] at h
        have h' : some (⟨l, kw, t.max_buy, t.resale_avg - l.price,
            (t.resale_avg - l.price) / t.resale_avg⟩ : Deal) = some d := h
        obtain rfl := Option.some.inj h'
        refine ⟨?_, t, hft, ?_⟩
        · show (t.resale_avg - l.price) / t.resale_avg = 1
          rw [hp, sub_zero]
          exact div_self (findTarget_resale_ne_zero hft)
        · show t.resale_avg - l.price = t.resale_avg
          rw [hp]
          exact sub_zero _
      · rw [if_neg hle] at h
        exact absurd (show (none : Option Deal) = some d from h) (by simp)

theorem evaluate_price0_margin {l : Listing} {d : Deal} (hp : l.price = 0)
    (h : evaluate_listing PRICING_TARGETS l = some d) :
    d.margin_percentage = 1
    ∧ ∃ t, findTarget PRICING_TARGETS (pyKey d.target_item) = some t
        ∧ d.profit_potential = t.resale_avg := by
  rcases htc : tryCategory PRICING_TARGETS l diabetic_supplies with _ | d1
  · rw [evaluate_listing_of_try_none htc] at h
    exact tryCategory_price0 hp h
  · rw [evaluate_listing_of_try_some htc] at h
    obtain rfl := Option.some.inj h
    exact tryCategory_price0 hp htc

/-- If the title matches one of the six diabetic keyword entries whose
key is a pricing target, the matcher's first hit on the diabetic list is
also one of those six (they head the list, so nothing non-target can
precede them). -/
theorem diabetic_match_target {title K : String}
    (hK : K ∈ ["Dexcom G6", "Dexcom G7", "Omnipod 5", "Omnipod DASH",
               "Freestyle Libre", "Test Strips"])
    (hm : kwMatches title K = true) :
    ∃ k, match_keywords title diabetic_supplies = some k
      ∧ k ∈ ["Dexcom G6", "Dexcom G7", "Omnipod 5", "Omnipod DASH",
             "Freestyle Libre", "Test Strips"] := by
  unfold match_keywords diabetic_supplies
  by_cases h1 : kwMatches title "Dexcom G6" = true
  · exact ⟨_, List.find?_cons_of_pos _ h1, by simp⟩
  · rw [List.find?_cons_of_neg _ h1]
    by_cases h2 : kwMatches title "Dexcom G7" = true
    · exact ⟨_, List.find?_cons_of_pos _ h2, by simp⟩
    · rw [List.find?_cons_of_neg _ h2]
      by_cases h3 : kwMatches title "Omnipod 5" = true
      · exact ⟨_, List.find?_cons_of_pos _ h3, by simp⟩
      · rw [List.find?_cons_of_neg _ h3]
        by_cases h4 : kwMatches title "Omnipod DASH" = true
        · exact ⟨_, List.find?_cons_of_pos _ h4, by simp⟩
        · rw [List.find?_cons_of_neg _ h4]
          by_cases h5 : kwMatches title "Freestyle Libre" = true
          · exact ⟨_, List.find?_cons_of_pos _ h5, by simp⟩
          · rw [List.find?_cons_of_neg _ h5]
            by_cases h6 : kwMatches title "Test Strips" = true
            · exact ⟨_, List.find?_cons_of_pos _ h6, by simp⟩
            · exfalso
              simp only [List.mem_cons, List.not_mem_nil, or_false] at hK
              rcases hK with rfl | rfl | rfl | rfl | rfl | rfl
              · exact h1 hm
              · exact h2 hm
              · exact h3 hm
              · exact h4 hm
              · exact h5 hm
              · exact h6 hm

/-- Phones analogue of `diabetic_match_target`: the two phone keywords
with pricing-target keys head the phones list. -/
theorem phones_match_target {title K : String}
    (hK : K ∈ ["iPhone 15", "iPhone 14 Pro"])
    (hm : kwMatches title K = true) :
    ∃ k, match_keywords title phones = some k
      ∧ k ∈ ["iPhone 15", "iPhone 14 Pro"] := by
  unfold match_keywords phones
  by_cases h1 : kwMatches title "iPhone 15" = true
  · exact ⟨_, List.find?_cons_of_pos _ h1, by simp⟩
  · rw [List.find?_cons_of_neg _ h1]
    by_cases h2 : kwMatches title "iPhone 14 Pro" = true
    · exact ⟨_, List.find?_cons_of_pos _ h2, by simp⟩
    · exfalso
      simp only [List.mem_cons, List.not_mem_nil, or_false] at hK
      rcases hK with rfl | rfl
      · exact h1 hm
      · exact h2 hm

/-- The eight target keywords resolve in `PRICING_TARGETS` and a price of
`0` is accepted for each (every `max_buy` is nonnegative). -/
theorem target_key_accepts_zero {k : String}
    (hk : k ∈ ["Dexcom G6", "Dexcom G7", "Omnipod 5", "Omnipod DASH",
               "Freestyle Libre", "Test Strips", "iPhone 15", "iPhone 14 Pro"]) :
    ∃ pm, check_price_match PRICING_TARGETS 0 (pyKey k) = some pm := by
  simp only [List.mem_cons, List.not_mem_nil, or_false] at hk
  rcases hk with rfl | rfl | rfl | rfl | rfl | rfl | rfl | rfl
  · exact ⟨⟨"dexcom_g6", 35, 90, 90, 1⟩, by with_unfolding_all decide⟩
  · exact ⟨⟨"dexcom_g7", 45, 120, 120, 1⟩, by with_unfolding_all decide⟩
  · exact ⟨⟨"omnipod_5", 100, 200, 200, 1⟩, by with_unfolding_all decide⟩
  · exact ⟨⟨"omnipod_dash", 90, 180, 180, 1⟩, by with_unfolding_all decide⟩
  · exact ⟨⟨"freestyle_libre", 30, 80, 80, 1⟩, by with_unfolding_all decide⟩
  · exact ⟨⟨"test_strips", 20, 50, 50, 1⟩, by with_unfolding_all decide⟩
  · exact ⟨⟨"iphone_15", 300, 400, 400, 1⟩, by with_unfolding_all decide⟩
  · exact ⟨⟨"iphone_14_pro", 350, 500, 500, 1⟩, by with_unfolding_all decide⟩

/-- A zero-priced listing whose title matches one of the eight target
keywords always produces a deal. -/
theorem evaluate_price0_some {l : Listing} {K : String} (hp : l.price = 0)
    (hK : K ∈ ["Dexcom G6", "Dexcom G7", "Omnipod 5", "Omnipod DASH",
               "Freestyle Libre", "Test Strips", "iPhone 15", "iPhone 14 Pro"])
    (hm : kwMatches l.title K = true) :
    ∃ d, evaluate_listing PRICING_TARGETS l = some d := by
  have hsplit : K ∈ ["Dexcom G6", "Dexcom G7", "Omnipod 5", "Omnipod DASH",
        "Freestyle Libre", "Test Strips"] ∨ K ∈ ["iPhone 15", "iPhone 14 Pro"] := by
    simp only [List.mem_cons, List.not_mem_nil, or_false] at hK ⊢
    tauto
  rcases hsplit with h6 | h2
  · obtain ⟨k, hmk, hk6⟩ := diabetic_match_target h6 hm
    obtain ⟨pm, hcp⟩ := target_key_accepts_zero (k := k) (by
      simp only [List.mem_cons, List.not_mem_nil, or_false] at hk6 ⊢
      tauto)
    rw [← hp] at hcp
    exact ⟨_, evaluate_listing_of_try_some (tryCategory_some_of hmk hcp)⟩
  · rcases htc : tryCategory PRICING_TARGETS l diabetic_supplies with _ | d1
    · obtain ⟨k, hmk, hk2⟩ := phones_match_target h2 hm
      obtain ⟨pm, hcp⟩ := target_key_accepts_zero (k := k) (by
        simp only [List.mem_cons, List.not_mem_nil, or_false] at hk2 ⊢
        tauto)
      rw [← hp] at hcp
      rw [evaluate_listing_of_try_none htc]
      exact ⟨_, tryCategory_some_of hmk hcp⟩
    · exact ⟨d1, evaluate_listing_of_try_some htc⟩

/-- Claim C10 as stated is false on the code: line 149 truncates the
stored listing title at the first `" - "` *before* any keyword matching,
so a feed title that only contains a target keyword after a `" - "`
separator emits no deal although the title has no `$` and contains the
keyword.  `"FS - Dexcom G6"` case-insensitively contains `"Dexcom G6"`,
is scraped (price `0`) to a listing titled `"FS"`, matches nothing, and
the cycle records it without emitting any deal. -/
theorem C10_counterexample :
    ('$' ∉ ("FS - Dexcom G6").data)
    ∧ kwMatches "FS - Dexcom G6" "Dexcom G6" = true
    ∧ (scrapeEntry "newyork" 600 ⟨"e9", "FS - Dexcom G6", "u", "t"⟩).map
        (fun l => l.title) = some "FS"
    ∧ (scrapeEntry "newyork" 600 ⟨"e9", "FS - Dexcom G6", "u", "t"⟩).map
        (fun l => evaluate_listing PRICING_TARGETS l) = some none
    ∧ (scrapeEntry "newyork" 600 ⟨"e9", "FS - Dexcom G6", "u", "t"⟩).map
        (fun l => (step PRICING_TARGETS ([], []) l).2) = some [] := by
  refine ⟨by decide, by decide, by decide, by decide, by decide⟩

/-- Claim C10, amended: a feed entry whose title has no `$` and whose
*stored listing title* — the feed title truncated at the first `" - "`
(line 149) — matches (case-insensitively) one of the eight keywords
whose lowercased underscore form is a pricing-target key is assigned
price `0`, every `max_buy` threshold admits it, and on first occurrence
(id unseen) the cycle emits a deal whose profit equals the matched
item's full resale value and whose margin is exactly `1`. -/
theorem C10_zero_price_deal (city : String) (e : FeedEntry) (K : String)
    (seen : List String) (ds : List Deal)
    (hd : '$' ∉ e.title.data)
    (hK : K ∈ ["Dexcom G6", "Dexcom G7", "Omnipod 5", "Omnipod DASH",
               "Freestyle Libre", "Test Strips", "iPhone 15", "iPhone 14 Pro"])
    (hm : kwMatches (String.mk (takeUntilSep " - ".data e.title.data)) K = true)
    (hseen : ("cl_" ++ city ++ "_" ++ e.id : String) ∉ seen) :
    ∃ l d, scrapeEntry city 600 e = some l ∧ l.price = 0
      ∧ evaluate_listing PRICING_TARGETS l = some d
      ∧ step PRICING_TARGETS (seen, ds) l = (l.id :: seen, ds ++ [d])
      ∧ d.margin_percentage = 1
      ∧ (∃ t, findTarget PRICING_TARGETS (pyKey d.target_item) = some t
          ∧ d.profit_potential = t.resale_avg)
      ∧ ∀ p ∈ PRICING_TARGETS, (0 : ℚ) ≤ p.2.max_buy := by
  obtain ⟨l, hsc, hp, htitle, hid⟩ :=
    scrapeEntry_no_dollar city 600 e hd (by norm_num)
  have hm' : kwMatches l.title K = true := by rw [htitle]; exact hm
  obtain ⟨d, hev⟩ := evaluate_price0_some hp hK hm'
  have hseen' : l.id ∉ seen := by rw [hid]; exact hseen
  have hstep : step PRICING_TARGETS (seen, ds) l = (l.id :: seen, ds ++ [d]) := by
    unfold step
    rw [if_neg hseen', hev]
  obtain ⟨hmargin, hprofit⟩ := evaluate_price0_margin hp hev
  exact ⟨l, d, hsc, hp, hev, hstep, hmargin, hprofit,
    by with_unfolding_all decide⟩

/-- Witness for `C10_zero_price_deal` at the concrete entry
`"Dexcom G6 sensors"` with no `$` in the title. -/
theorem C10_zero_price_deal_witness :
    ∃ l d, scrapeEntry "newyork" 600 dexcomEntry = some l ∧ l.price = 0
      ∧ evaluate_listing PRICING_TARGETS l = some d
      ∧ step PRICING_TARGETS ([], []) l = (l.id :: [], [] ++ [d])
      ∧ d.margin_percentage = 1
      ∧ (∃ t, findTarget PRICING_TARGETS (pyKey d.target_item) = some t
          ∧ d.profit_potential = t.resale_avg)
      ∧ ∀ p ∈ PRICING_TARGETS, (0 : ℚ) ≤ p.2.max_buy :=
  C10_zero_price_deal "newyork" dexcomEntry "Dexcom G6" [] []
    (by decide) (by simp) (by decide) (by simp)

end MMon
